/-
Verification development for the snnradiation fault-injection engine.

The Python sources under src/snnradiation are shallowly embedded:
  - `Rad_damage.py`  : the fault specification (`Rad_damage`), its validating
    constructor, and the SHA-256 based identity hashing
    (`get_rad_settings_hash`, `get_rad_hash`, `list_of_hashes_to_hash`);
  - `apply_rad_to_simsnn.py` : the network-mutation engine (the umbrella
    dispatcher and the four injection branches);
  - `Radiation_damage.py` : the legacy nx-graph sampler
    (`get_random_neurons`) and `store_dead_neuron_names_in_graph`.

Machine-level conventions of the embedding:
  - Python floats are modelled by exact rationals; the file only performs the
    comparisons and copies the source performs on them, never float rounding.
  - Python object identity (needed to talk about "the nodes created in this
    call") is modelled by a `uid : Nat` on each node, drawn from a fresh-uid
    counter on the network.
  - External collaborators (hashlib, json, random, numpy, simsnn) are
    modelled at their interface: SHA-256 is implemented bit-faithfully over
    byte lists, `json.dumps` by a canonical textual rendering, and
    `random.sample` by a deterministic draw-without-replacement generator
    that honours its documented contract (seed-determined, distinct
    positions from the requested range).
-/
import Mathlib

set_option maxHeartbeats 1000000

/-! ## Generic list helpers -/

/-- Model of Python's `enumerate`, starting at index `i`. -/
def enumFrom (i : Nat) : List α → List (Nat × α)
  | [] => []
  | x :: xs => (i, x) :: enumFrom (i + 1) xs

/-- Indexed map, starting the index at `k`; models `for count, x in enumerate(...)`
loops that rebuild a list elementwise. -/
def mapWithIdx (f : Nat → α → β) : Nat → List α → List β
  | _, [] => []
  | k, x :: xs => f k x :: mapWithIdx f (k + 1) xs

theorem mapWithIdx_length (f : Nat → α → β) :
    ∀ (k : Nat) (l : List α), (mapWithIdx f k l).length = l.length := by
  intro k l
  induction l generalizing k with
  | nil => rfl
  | cons x xs ih => simp [mapWithIdx, ih]

theorem mapWithIdx_getD (f : Nat → α → β) (d : β) (d0 : α) :
    ∀ (l : List α) (k i : Nat), i < l.length →
      (mapWithIdx f k l).getD i d = f (k + i) (l.getD i d0) := by
  intro l
  induction l with
  | nil => intro k i h; simp at h
  | cons x xs ih =>
    intro k i h
    cases i with
    | zero => simp [mapWithIdx]
    | succ j =>
      have hj : j < xs.length := by simpa using Nat.lt_of_succ_lt_succ h
      have ihh := ih (k + 1) j hj
      simp only [mapWithIdx, List.getD_cons_succ]
      rw [ihh]
      have harith : k + 1 + j = k + (j + 1) := by omega
      rw [harith]

theorem getD_mem {α : Type _} : ∀ (l : List α) (n : Nat) (d : α),
    n < l.length → l.getD n d ∈ l := by
  intro l
  induction l with
  | nil => intro n d h; simp at h
  | cons x xs ih =>
    intro n d h
    cases n with
    | zero => simp [List.getD]
    | succ m =>
      have hm : m < xs.length := by simpa using Nat.lt_of_succ_lt_succ h
      simp only [List.getD_cons_succ]
      exact List.mem_cons_of_mem _ (ih m d hm)

/-! ## SHA-256 over byte lists (model of `hashlib.sha256`)

All words are `Nat` reduced modulo `2^32`; bytes are `Nat` below `256`. -/

def w32 (n : Nat) : Nat := n % 4294967296

def rotr32 (x n : Nat) : Nat := w32 ((x >>> n) ||| (x <<< (32 - n)))

def bigSigma0 (x : Nat) : Nat := (rotr32 x 2) ^^^ (rotr32 x 13) ^^^ (rotr32 x 22)

def bigSigma1 (x : Nat) : Nat := (rotr32 x 6) ^^^ (rotr32 x 11) ^^^ (rotr32 x 25)

def smallSigma0 (x : Nat) : Nat := (rotr32 x 7) ^^^ (rotr32 x 18) ^^^ (x >>> 3)

def smallSigma1 (x : Nat) : Nat := (rotr32 x 17) ^^^ (rotr32 x 19) ^^^ (x >>> 10)

def chFun (x y z : Nat) : Nat := (x &&& y) ^^^ ((x ^^^ 4294967295) &&& z)

def majFun (x y z : Nat) : Nat := (x &&& y) ^^^ (x &&& z) ^^^ (y &&& z)

/-- The 64 SHA-256 round constants. -/
def shaK : List Nat :=
  [1116352408, 1899447441, 3049323471, 3921009573, 961987163, 1508970993,
   2453635748, 2870763221, 3624381080, 310598401, 607225278, 1426881987,
   1925078388, 2162078206, 2614888103, 3248222580, 3835390401, 4022224774,
   264347078, 604807628, 770255983, 1249150122, 1555081692, 1996064986,
   2554220882, 2821834349, 2952996808, 3210313671, 3336571891, 3584528711,
   113926993, 338241895, 666307205, 773529912, 1294757372, 1396182291,
   1695183700, 1986661051, 2177026350, 2456956037, 2730485921, 2820302411,
   3259730800, 3345764771, 3516065817, 3600352804, 4094571909, 275423344,
   430227734, 506948616, 659060556, 883997877, 958139571, 1322822218,
   1537002063, 1747873779, 1955562222, 2024104815, 2227730452, 2361852424,
   2428436474, 2756734187, 3204031479, 3329325298]

structure Hash8 where
  a : Nat
  b : Nat
  c : Nat
  d : Nat
  e : Nat
  f : Nat
  g : Nat
  h : Nat
  deriving DecidableEq, Repr

def shaH0 : Hash8 :=
  ⟨1779033703, 3144134277, 1013904242, 2773480762,
   1359893119, 2600822924, 528734635, 1541459225⟩

def shaRound (st : Hash8) (k w : Nat) : Hash8 :=
  let t1 := w32 (st.h + bigSigma1 st.e + chFun st.e st.f st.g + k + w)
  let t2 := w32 (bigSigma0 st.a + majFun st.a st.b st.c)
  ⟨w32 (t1 + t2), st.a, st.b, st.c, w32 (st.d + t1), st.e, st.f, st.g⟩

/-- Big-endian packing of bytes into 32-bit words, four bytes per word. -/
def bytesToWords : List Nat → List Nat
  | b0 :: b1 :: b2 :: b3 :: rest =>
      (b0 * 16777216 + b1 * 65536 + b2 * 256 + b3) :: bytesToWords rest
  | _ => []

/-- Extend the 16-word schedule by `k` more words. -/
def extendW (w : List Nat) : Nat → List Nat
  | 0 => w
  | k + 1 =>
      extendW
        (w ++ [w32 (smallSigma1 (w.getD (w.length - 2) 0) +
                    w.getD (w.length - 7) 0 +
                    smallSigma0 (w.getD (w.length - 15) 0) +
                    w.getD (w.length - 16) 0)]) k

/-- Big-endian 64-bit length field of the padding. -/
def lenBytes (n : Nat) : List Nat :=
  [n / 72057594037927936 % 256, n / 281474976710656 % 256,
   n / 1099511627776 % 256, n / 4294967296 % 256,
   n / 16777216 % 256, n / 65536 % 256, n / 256 % 256, n % 256]

/-- SHA-256 padding: a `0x80` byte, zeros up to 56 mod 64, then the bit
length, big-endian. -/
def padMsg (msg : List Nat) : List Nat :=
  let len := msg.length
  let padLen := (119 - len % 64) % 64
  msg ++ [128] ++ List.replicate padLen 0 ++ lenBytes (8 * len)

/-- Split into 64-byte blocks; the fuel argument bounds the number of blocks
(the padded message is nonempty and consumed 64 bytes at a time). -/
def chunk64 : Nat → List Nat → List (List Nat)
  | 0, _ => []
  | _, [] => []
  | fuel + 1, l => l.take 64 :: chunk64 fuel (l.drop 64)

def shaCompress (st : Hash8) (block : List Nat) : Hash8 :=
  let w := extendW (bytesToWords block) 48
  let st2 := (shaK.zip w).foldl (fun s p => shaRound s p.1 p.2) st
  ⟨w32 (st.a + st2.a), w32 (st.b + st2.b), w32 (st.c + st2.c),
   w32 (st.d + st2.d), w32 (st.e + st2.e), w32 (st.f + st2.f),
   w32 (st.g + st2.g), w32 (st.h + st2.h)⟩

def shaFinal (msg : List Nat) : Hash8 :=
  let padded := padMsg msg
  (chunk64 padded.length padded).foldl shaCompress shaH0

def wordToBytes (w : Nat) : List Nat :=
  [w / 16777216 % 256, w / 65536 % 256, w / 256 % 256, w % 256]

def hashToBytes (st : Hash8) : List Nat :=
  wordToBytes st.a ++ wordToBytes st.b ++ wordToBytes st.c ++
  wordToBytes st.d ++ wordToBytes st.e ++ wordToBytes st.f ++
  wordToBytes st.g ++ wordToBytes st.h

def sha256bytes (msg : List Nat) : List Nat := hashToBytes (shaFinal msg)

def hexChars : List Char := "0123456789abcdef".data

def hexDigit (n : Nat) : Char := hexChars.getD n '0'

def hexOfBytes : List Nat → List Char
  | [] => []
  | b :: rest => hexDigit (b / 16) :: hexDigit (b % 16) :: hexOfBytes rest

/-- Byte encoding of a string, by code point.  For the ASCII output of the
JSON serializer below this coincides with Python's `encode("utf-8")`. -/
def strBytes (s : String) : List Nat := s.data.map Char.toNat

/-- Model of `hashlib.sha256(s.encode("utf-8")).hexdigest()`. -/
def sha256hex (s : String) : String := ⟨hexOfBytes (sha256bytes (strBytes s))⟩

theorem sha256bytes_length (msg : List Nat) : (sha256bytes msg).length = 32 := rfl

theorem wordToBytes_lt (w : Nat) : ∀ b ∈ wordToBytes w, b < 256 := by
  intro b hb
  simp [wordToBytes] at hb
  rcases hb with h | h | h | h <;> subst h <;> exact Nat.mod_lt _ (by norm_num)

theorem sha256bytes_lt (msg : List Nat) : ∀ b ∈ sha256bytes msg, b < 256 := by
  intro b hb
  simp [sha256bytes, hashToBytes] at hb
  rcases hb with h | h | h | h | h | h | h | h <;>
    exact wordToBytes_lt _ b h

theorem hexOfBytes_length : ∀ l : List Nat, (hexOfBytes l).length = 2 * l.length := by
  intro l
  induction l with
  | nil => rfl
  | cons b rest ih => simp [hexOfBytes, ih]; omega

theorem hexDigit_mem_of_lt {n : Nat} (h : n < 16) : hexDigit n ∈ hexChars := by
  have hb : ∀ m, m < 16 → hexDigit m ∈ hexChars := by decide
  exact hb n h

theorem hexOfBytes_mem : ∀ l : List Nat, (∀ b ∈ l, b < 256) →
    ∀ c ∈ hexOfBytes l, c ∈ hexChars := by
  intro l
  induction l with
  | nil => intro _ c hc; simp [hexOfBytes] at hc
  | cons b rest ih =>
    intro hl c hc
    have hb : b < 256 := hl b (List.mem_cons_self _ _)
    simp only [hexOfBytes, List.mem_cons] at hc
    rcases hc with h | h | h
    · subst h
      exact hexDigit_mem_of_lt (Nat.div_lt_of_lt_mul (by omega))
    · subst h
      exact hexDigit_mem_of_lt (Nat.mod_lt _ (by norm_num))
    · exact ih (fun x hx => hl x (List.mem_cons_of_mem _ hx)) c h

theorem sha256hex_length (s : String) : (sha256hex s).length = 64 := by
  have h1 : (sha256hex s).length = (hexOfBytes (sha256bytes (strBytes s))).length := rfl
  rw [h1, hexOfBytes_length, sha256bytes_length]

theorem sha256hex_mem (s : String) : ∀ c ∈ (sha256hex s).data, c ∈ hexChars := by
  intro c hc
  exact hexOfBytes_mem _ (sha256bytes_lt _) c hc

/-! ## Canonical JSON rendering (model of `json.dumps`) and sorting

`json.dumps` with default separators renders a list as
`[item, item, ...]`.  String escaping is omitted: every claim below is
independent of the rendered bytes, and the strings actually serialized
(hex digests, decimal seeds, neuron names) need no escapes. -/

def jsonStr (s : String) : String := "\"" ++ s ++ "\""

def jsonDumpStrList (l : List String) : String :=
  "[" ++ String.intercalate ", " (l.map jsonStr) ++ "]"

/-- A primitive Python value as it appears in the serialized settings list. -/
inductive PyVal where
  | str (s : String)
  | rat (q : ℚ)
  | int (n : Int)
  | bool (b : Bool)
  | nil
  deriving DecidableEq, Repr

/-- JSON rendering of one primitive value.  Python's `repr`-based float
rendering is modelled by an exact rational rendering: no claim depends on
the digits, only on the rendering being a function of the value. -/
def pyValJson : PyVal → String
  | .str s => jsonStr s
  | .rat q => if q.den = 1 then toString q.num ++ ".0"
              else toString q.num ++ "/" ++ toString q.den
  | .int n => toString n
  | .bool b => if b then "true" else "false"
  | .nil => "null"

def jsonDumpPairs (l : List (String × PyVal)) : String :=
  "[" ++ String.intercalate ", "
    (l.map (fun p => "[" ++ jsonStr p.1 ++ ", " ++ pyValJson p.2 ++ "]")) ++ "]"

/-- Model of Python `sorted` on a list of strings (lexicographic order on
code points; any linear order gives the permutation-invariance used below). -/
def sortStrings (l : List String) : List String :=
  List.insertionSort (fun a b : String => a ≤ b) l

/-- Model of Python `sorted` on the `(field_name, value)` tuples of
`__dict__.items()`: tuples compare by first component first, and the six
field names are pairwise distinct, so sorting is by field name. -/
def sortPairs (l : List (String × PyVal)) : List (String × PyVal) :=
  List.insertionSort (fun a b : String × PyVal => a.1 ≤ b.1) l

/-! ## `Rad_damage` (src/snnradiation/Rad_damage.py) -/

structure Rad_damage where
  amplitude : ℚ
  effect_type : String
  excitatory : Bool
  inhibitory : Bool
  probability_per_t : Option ℚ
  nr_of_synaptic_weight_increases : Option Int
  deriving DecidableEq, Repr

/-- The validation failures of `Rad_damage.__init__` (the spec's
`ConfigError` class; the source raises `ValueError` for the probability
checks and `NotImplementedError` for an unknown effect type). -/
inductive ConfigError where
  | neitherProbabilitySet
  | bothProbabilitiesSet
  | probabilityTooLarge (p : ℚ)
  | probabilityTooSmall (p : ℚ)
  | unknownEffectType (kind : String)
  deriving DecidableEq, Repr

def isError : Except ConfigError Rad_damage → Bool
  | .error _ => true
  | .ok _ => false

def validEffectTypes : List String :=
  ["change_u", "neuron_death", "rand_neuron_spike", "rand_synapse_spike",
   "change_synaptic_weight"]

/-- `Rad_damage.__init__`, with each `raise` modelled as an `Except.error`.
The checks run in source order: neither-set, both-set, probability range
(only when `probability_per_t` is given), then the effect-type whitelist. -/
def Rad_damage.make (amplitude : ℚ) (effect_type : String)
    (excitatory inhibitory : Bool) (probability_per_t : Option ℚ)
    (nr_of_synaptic_weight_increases : Option Int) :
    Except ConfigError Rad_damage :=
  if nr_of_synaptic_weight_increases = none ∧ probability_per_t = none then
    .error .neitherProbabilitySet
  else if nr_of_synaptic_weight_increases ≠ none ∧ probability_per_t ≠ none then
    .error .bothProbabilitiesSet
  else
    let checkedKind : Except ConfigError Rad_damage :=
      if effect_type ∉ validEffectTypes then
        .error (.unknownEffectType effect_type)
      else
        .ok { amplitude := amplitude, effect_type := effect_type,
              excitatory := excitatory, inhibitory := inhibitory,
              probability_per_t := probability_per_t,
              nr_of_synaptic_weight_increases := nr_of_synaptic_weight_increases }
    match probability_per_t with
    | some v =>
        if 1 < v then .error (.probabilityTooLarge v)
        else if v < 0 then .error (.probabilityTooSmall v)
        else checkedKind
    | none => checkedKind

def optRatVal : Option ℚ → PyVal
  | none => .nil
  | some q => .rat q

def optIntVal : Option Int → PyVal
  | none => .nil
  | some n => .int n

/-- The `(key, value)` pairs of `self.__dict__.items()`, in attribute
insertion order (the order `__init__` assigns them). -/
def radSettingsPairs (r : Rad_damage) : List (String × PyVal) :=
  [("amplitude", .rat r.amplitude),
   ("effect_type", .str r.effect_type),
   ("excitatory", .bool r.excitatory),
   ("inhibitory", .bool r.inhibitory),
   ("nr_of_synaptic_weight_increases", optIntVal r.nr_of_synaptic_weight_increases),
   ("probability_per_t", optRatVal r.probability_per_t)]

/-- `Rad_damage.get_rad_settings_hash`. -/
def Rad_damage.get_rad_settings_hash (r : Rad_damage) : String :=
  sha256hex (jsonDumpPairs (sortPairs (radSettingsPairs r)))

/-- `Rad_damage.get_rad_hash`.  The Python method mutates its
`neuron_names` argument in place via `list.append`; the embedding returns
the hash together with the final state of that list. -/
def Rad_damage.get_rad_hash (r : Rad_damage) (neuron_names : List String)
    (seed : Int) : String × List String :=
  let names1 := neuron_names ++ [r.get_rad_settings_hash]
  let names2 := names1 ++ [toString seed]
  (sha256hex (jsonDumpStrList (sortStrings names2)), names2)

/-- `list_of_hashes_to_hash`. -/
def list_of_hashes_to_hash (hashes : List String) : String :=
  sha256hex (jsonDumpStrList (sortStrings hashes))

/-! ## simsnn network model (interface consumed by apply_rad_to_simsnn.py)

A node is either an original LIF neuron (identified by its name) or a
synthetic `RandomSpiker`.  The `uid` field models Python object identity:
the network carries a fresh-uid counter and every node object ever created
for it has a distinct uid. -/

inductive NodePayload where
  | lif (name : String)
  | randomSpiker (p : Option ℚ) (amplitude : ℚ) (rngSeed : Int)
  deriving DecidableEq, Repr

structure Node where
  uid : Nat
  payload : NodePayload
  deriving DecidableEq, Repr

instance : Inhabited Node := ⟨{ uid := 0, payload := .lif "" }⟩

/-- `node.name`; a simsnn `RandomSpiker` carries no user-assigned name. -/
def Node.name : Node → String
  | { payload := .lif n, .. } => n
  | { payload := .randomSpiker _ _ _, .. } => ""

def Node.spikerInternalAmplitude : Node → Option ℚ
  | { payload := .randomSpiker _ a _, .. } => some a
  | _ => none

/-- The shared `Synaptic_rad` behaviour object (external simsnn class); the
constructor only records its arguments. -/
structure SynapticRad where
  avg_weight_increase : ℚ
  effect_type : String
  est_sim_duration : Int
  n_synapses : Nat
  neuron_names : List String
  nswi : Option Int
  probability_per_t : Option ℚ
  seed : Int
  deriving DecidableEq, Repr

structure Synapse where
  pre : Node
  post : Node
  w : ℚ
  d : Nat
  rad_behaviour : Option SynapticRad
  ID : Option Nat
  deriving DecidableEq, Repr

instance : Inhabited Synapse :=
  ⟨{ pre := default, post := default, w := 0, d := 0,
     rad_behaviour := none, ID := none }⟩

structure Network where
  nodes : List Node
  synapses : List Synapse
  nextUid : Nat
  deriving DecidableEq, Repr

/-- The synapse object `simsnn.core.connections.Synapse(pre, post, w, d)`
builds (no radiation behaviour, no explicit ID). -/
def mkPlainSynapse (pre post : Node) (w : ℚ) (d : Nat) : Synapse :=
  { pre := pre, post := post, w := w, d := d, rad_behaviour := none, ID := none }

/-- `net.createSynapse(pre=..., post=..., w=..., d=...)`: append one directed
synapse. -/
def Network.createSynapse (net : Network) (pre post : Node) (w : ℚ) (d : Nat) :
    Network :=
  { net with synapses := net.synapses ++ [mkPlainSynapse pre post w d] }

def Network.appendNode (net : Network) (node : Node) : Network :=
  { net with nodes := net.nodes ++ [node] }

/-! ## apply_rad_to_simsnn.py -/

/-- Phase 1 of `apply_delta_u_rad`: the
`for i, node in enumerate(snn.network.nodes): if node.name not in
ignored_neuron_names: ...` loop, collecting `(rand_spiking_node, node)`
pairs.  `u` is the fresh-uid counter (object creation order), `i` the
`enumerate` index. -/
def deltaUPairs (rad : Rad_damage) (seed : Int) (ignored : List String) :
    Nat → Nat → List Node → List (Node × Node)
  | _, _, [] => []
  | u, i, node :: rest =>
    if node.name ∉ ignored then
      ({ uid := u,
         payload := .randomSpiker rad.probability_per_t (-10000) (seed + i) },
        node) :: deltaUPairs rad seed ignored (u + 1) (i + 1) rest
    else
      deltaUPairs rad seed ignored u (i + 1) rest

/-- `apply_delta_u_rad`: one `RandomSpiker(p=rad.probability_per_t,
amplitude=-10000, rng=default_rng(seed+i))` per non-ignored neuron, then a
second loop appending each spiker and wiring it into its neuron with weight
`rad.amplitude` and delay 1. -/
def apply_delta_u_rad (rad : Rad_damage) (seed : Int) (net : Network)
    (ignored : List String) : Network :=
  let new_nodes := deltaUPairs rad seed ignored net.nextUid 0 net.nodes
  let net1 : Network := { net with nextUid := net.nextUid + new_nodes.length }
  new_nodes.foldl
    (fun acc pr => (acc.appendNode pr.1).createSynapse pr.1 pr.2 rad.amplitude 1)
    net1

/-- Phase 1 of `apply_rand_spiking_neuron_rad`: per non-ignored neuron, one
spiker (amplitude 1) plus the snapshot of the original synapses leaving
that neuron. -/
def randNeuronPairs (rad : Rad_damage) (seed : Int) (ignored : List String)
    (synapses : List Synapse) : Nat → Nat → List Node → List (Node × List Synapse)
  | _, _, [] => []
  | u, i, node :: rest =>
    if node.name ∉ ignored then
      ({ uid := u,
         payload := .randomSpiker rad.probability_per_t 1 (seed + i) },
        synapses.filter (fun s => s.pre.name = node.name)) ::
        randNeuronPairs rad seed ignored synapses (u + 1) (i + 1) rest
    else
      randNeuronPairs rad seed ignored synapses u (i + 1) rest

/-- `apply_rand_spiking_neuron_rad`: collect spiker/neighbour-synapse pairs
from the unmodified network, then append each spiker and one parallel
synapse per recorded outgoing synapse (same post, same weight, delay 1). -/
def apply_rand_spiking_neuron_rad (rad : Rad_damage) (seed : Int)
    (net : Network) (ignored : List String) : Network :=
  let new_nodes := randNeuronPairs rad seed ignored net.synapses net.nextUid 0 net.nodes
  let net1 : Network := { net with nextUid := net.nextUid + new_nodes.length }
  new_nodes.foldl
    (fun acc pr =>
      pr.2.foldl (fun acc2 syn => acc2.createSynapse pr.1 syn.post syn.w 1)
        (acc.appendNode pr.1))
    net1

/-- Phase 1 of `apply_rand_spiking_synapse_rad`: per synapse whose origin is
not ignored, one spiker (amplitude 1, seeded by the synapse's `enumerate`
index). -/
def randSynapsePairs (rad : Rad_damage) (seed : Int) (ignored : List String) :
    Nat → Nat → List Synapse → List (Node × Synapse)
  | _, _, [] => []
  | u, i, syn :: rest =>
    if syn.pre.name ∉ ignored then
      ({ uid := u,
         payload := .randomSpiker rad.probability_per_t 1 (seed + i) },
        syn) :: randSynapsePairs rad seed ignored (u + 1) (i + 1) rest
    else
      randSynapsePairs rad seed ignored u (i + 1) rest

/-- `apply_rand_spiking_synapse_rad`. -/
def apply_rand_spiking_synapse_rad (rad : Rad_damage) (seed : Int)
    (net : Network) (ignored : List String) : Network :=
  let new_pairs := randSynapsePairs rad seed ignored net.nextUid 0 net.synapses
  let net1 : Network := { net with nextUid := net.nextUid + new_pairs.length }
  new_pairs.foldl
    (fun acc pr => (acc.appendNode pr.1).createSynapse pr.1 pr.2.post pr.2.w 1)
    net1

/-- The umbrella dispatcher `apply_rad_to_simsnn`: it tests
`rad.effect_type` against `"change_u"`, `"rand_neuron_spike"` and
`"rand_synapse_spike"` only, and falls through (returning the network
unchanged) for every other effect type, `"neuron_death"` included. -/
def apply_rad_to_simsnn (rad : Rad_damage) (seed : Int) (net : Network)
    (ignored_neuron_names : List String) : Network :=
  if rad.effect_type = "change_u" then
    apply_delta_u_rad rad seed net ignored_neuron_names
  else if rad.effect_type = "rand_neuron_spike" then
    apply_rand_spiking_neuron_rad rad seed net ignored_neuron_names
  else if rad.effect_type = "rand_synapse_spike" then
    apply_rand_spiking_synapse_rad rad seed net ignored_neuron_names
  else
    net

/-- The shared fault-behaviour object built by
`apply_synapse_weight_increase_rad`. -/
def mkSynapticRad (est_sim_duration : Int) (rad : Rad_damage) (seed : Int)
    (net : Network) : SynapticRad :=
  { avg_weight_increase := rad.amplitude,
    effect_type := rad.effect_type,
    est_sim_duration := est_sim_duration,
    n_synapses := net.synapses.length,
    neuron_names := net.nodes.map Node.name,
    nswi := rad.nr_of_synaptic_weight_increases,
    probability_per_t := rad.probability_per_t,
    seed := seed }

/-- `apply_synapse_weight_increase_rad`.  `copy.deepcopy` of the synapse
list is a value-level snapshot here (the claims below do not observe the
object identity of the copies); iterating the snapshot while assigning
`snn.network.synapses[count]` is an indexed elementwise rebuild. -/
def apply_synapse_weight_increase_rad (est_sim_duration : Int)
    (ignored : List String) (rad : Rad_damage) (seed : Int) (net : Network) :
    Except String Network :=
  if rad.nr_of_synaptic_weight_increases = none ∧ rad.probability_per_t = none then
    .error "Expected a specification of the nr of synaptic weight increases."
  else
    let synaptic_rad := mkSynapticRad est_sim_duration rad seed net
    .ok { net with synapses :=
      (mapWithIdx
        (fun count syn =>
          if syn.pre.name ∉ ignored ∧ syn.post.name ∉ ignored then
            { pre := syn.pre, post := syn.post, w := syn.w, d := syn.d,
              rad_behaviour := some synaptic_rad, ID := some count }
          else syn)
        0 net.synapses) }

/-! ## Radiation_damage.py: element sampler and graph marking -/

/-- Fold a Python seed (arbitrary int) into a 64-bit generator state. -/
def seedToNat (s : Int) : Nat := (s % (18446744073709551616 : Int)).toNat

/-- One step of the deterministic generator standing in for Python's
Mersenne Twister: a 64-bit linear congruential step. -/
def lcgStep (s : Nat) : Nat :=
  (6364136223846793005 * s + 1442695040888963407) % 18446744073709551616

/-- Draw `k` elements without replacement from `arr`: repeatedly pick a
position from the generator state, emit that element and recurse on the
list with it erased.  Models the contract of `random.sample(population, k)`
(deterministic from the seed, distinct elements of the population);
sampling from an exhausted population is out of contract and returns what
was drawn. -/
def sampleAux : Nat → Nat → List Nat → List Nat
  | _, 0, _ => []
  | st, k + 1, arr =>
    if arr.isEmpty then []
    else
      let st2 := lcgStep st
      let x := arr.getD (st2 % arr.length) 0
      x :: sampleAux st2 k (arr.erase x)

/-- The element sampler: `nr = int(total_count * fraction)` positions drawn
without replacement from `range(0, total_count)` after seeding the
generator with `seed` (`random.seed(seed)` followed by
`random.sample(range(0, total_count), nr)` in `get_random_neurons`). -/
def sample (total_count : Nat) (fraction : ℚ) (seed : Int) : List Nat :=
  let target := (Int.toNat ⌊(total_count : ℚ) * fraction⌋)
  sampleAux (seedToNat seed) target (List.range total_count)

/-- `Radiation_damage.get_random_neurons`: the node names of the graph at
the sampled positions, in graph order. -/
def get_random_neurons (node_names : List String) (probability : ℚ)
    (seed : Int) : List String :=
  let rand_indices := sample node_names.length probability seed
  (enumFrom 0 node_names).filterMap
    (fun p => if p.1 ∈ rand_indices then some p.2 else none)

/-- A node of the nx graph as `store_dead_neuron_names_in_graph` sees it:
its name and its (possibly absent) `"rad_death"` attribute.  Other node
attributes are untouched by the function and are not modelled. -/
structure GNode where
  name : String
  rad_death : Option Bool
  deriving DecidableEq, Repr

instance : Inhabited GNode := ⟨{ name := "", rad_death := none }⟩

/-- `store_dead_neuron_names_in_graph`: for every node of the graph, set
`"rad_death"` to whether its name occurs in `dead_neuron_names`. -/
def store_dead_neuron_names_in_graph (G : List GNode)
    (dead_neuron_names : List String) : List GNode :=
  G.map (fun nd =>
    if nd.name ∈ dead_neuron_names then { nd with rad_death := some true }
    else { nd with rad_death := some false })

/-! ## Characterizations of the injection loops -/

theorem deltaU_fold_spec (rad : Rad_damage) :
    ∀ (pairs : List (Node × Node)) (acc : Network),
      ((pairs.foldl
          (fun a pr => (a.appendNode pr.1).createSynapse pr.1 pr.2 rad.amplitude 1)
          acc).nodes = acc.nodes ++ pairs.map Prod.fst) ∧
      ((pairs.foldl
          (fun a pr => (a.appendNode pr.1).createSynapse pr.1 pr.2 rad.amplitude 1)
          acc).synapses =
        acc.synapses ++ pairs.map (fun pr => mkPlainSynapse pr.1 pr.2 rad.amplitude 1)) := by
  intro pairs
  induction pairs with
  | nil => intro acc; simp
  | cons pr rest ih =>
    intro acc
    have h := ih ((acc.appendNode pr.1).createSynapse pr.1 pr.2 rad.amplitude 1)
    constructor
    · simp only [List.foldl_cons]
      rw [h.1]
      simp [Network.appendNode, Network.createSynapse]
    · simp only [List.foldl_cons]
      rw [h.2]
      simp [Network.appendNode, Network.createSynapse]

theorem deltaUPairs_eq (rad : Rad_damage) (seed : Int) (ignored : List String) :
    ∀ (nodes : List Node) (u i : Nat),
      deltaUPairs rad seed ignored u i nodes =
        mapWithIdx
          (fun u2 p =>
            (({ uid := u2,
                payload := .randomSpiker rad.probability_per_t (-10000) (seed + p.1) } : Node),
              p.2))
          u ((enumFrom i nodes).filter (fun p => p.2.name ∉ ignored)) := by
  intro nodes
  induction nodes with
  | nil => intro u i; rfl
  | cons node rest ih =>
    intro u i
    by_cases hmem : node.name ∈ ignored
    · simp [deltaUPairs, enumFrom, hmem, ih]
    · simp [deltaUPairs, enumFrom, hmem, ih, mapWithIdx]

theorem createSyn_inner_fold (pre : Node) :
    ∀ (syns : List Synapse) (acc : Network),
      ((syns.foldl (fun a syn => a.createSynapse pre syn.post syn.w 1) acc).nodes
        = acc.nodes) ∧
      ((syns.foldl (fun a syn => a.createSynapse pre syn.post syn.w 1) acc).synapses
        = acc.synapses ++ syns.map (fun syn => mkPlainSynapse pre syn.post syn.w 1)) := by
  intro syns
  induction syns with
  | nil => intro acc; simp
  | cons syn rest ih =>
    intro acc
    have h := ih (acc.createSynapse pre syn.post syn.w 1)
    constructor
    · simp only [List.foldl_cons]
      rw [h.1]
      simp [Network.createSynapse]
    · simp only [List.foldl_cons]
      rw [h.2]
      simp [Network.createSynapse]

theorem randNeuron_fold_spec :
    ∀ (pairs : List (Node × List Synapse)) (acc : Network),
      ((pairs.foldl
          (fun a pr =>
            pr.2.foldl (fun a2 syn => a2.createSynapse pr.1 syn.post syn.w 1)
              (a.appendNode pr.1))
          acc).nodes = acc.nodes ++ pairs.map Prod.fst) ∧
      ((pairs.foldl
          (fun a pr =>
            pr.2.foldl (fun a2 syn => a2.createSynapse pr.1 syn.post syn.w 1)
              (a.appendNode pr.1))
          acc).synapses =
        acc.synapses ++
          pairs.flatMap (fun pr => pr.2.map (fun syn => mkPlainSynapse pr.1 syn.post syn.w 1))) := by
  intro pairs
  induction pairs with
  | nil => intro acc; simp
  | cons pr rest ih =>
    intro acc
    have hinner := createSyn_inner_fold pr.1 pr.2 (acc.appendNode pr.1)
    have h := ih (pr.2.foldl (fun a2 syn => a2.createSynapse pr.1 syn.post syn.w 1)
      (acc.appendNode pr.1))
    constructor
    · simp only [List.foldl_cons]
      rw [h.1, hinner.1]
      simp [Network.appendNode]
    · simp only [List.foldl_cons]
      rw [h.2, hinner.2]
      simp [Network.appendNode]

theorem randNeuronPairs_mem (rad : Rad_damage) (seed : Int) (ignored : List String)
    (synapses : List Synapse) :
    ∀ (nodes : List Node) (u i : Nat),
      ∀ pr ∈ randNeuronPairs rad seed ignored synapses u i nodes,
        u ≤ pr.1.uid ∧ ∀ syn ∈ pr.2, syn ∈ synapses := by
  intro nodes
  induction nodes with
  | nil => intro u i pr hpr; simp [randNeuronPairs] at hpr
  | cons node rest ih =>
    intro u i pr hpr
    by_cases hmem : node.name ∈ ignored
    · rw [randNeuronPairs, if_neg (by simpa using hmem)] at hpr
      exact ih u (i + 1) pr hpr
    · rw [randNeuronPairs, if_pos (by simpa using hmem)] at hpr
      rcases List.mem_cons.mp hpr with heq | htail
      · subst heq
        refine ⟨Nat.le_refl _, ?_⟩
        intro syn hsyn
        exact (List.mem_filter.mp hsyn).1
      · have := ih (u + 1) (i + 1) pr htail
        exact ⟨Nat.le_of_succ_le this.1, this.2⟩

/-! ## Sorting and sampling lemmas -/

theorem sortStrings_perm_eq {l1 l2 : List String} (h : l1.Perm l2) :
    sortStrings l1 = sortStrings l2 := by
  apply List.eq_of_perm_of_sorted (r := fun a b : String => a ≤ b)
  · exact (List.perm_insertionSort _ l1).trans
      (h.trans (List.perm_insertionSort _ l2).symm)
  · exact List.sorted_insertionSort _ l1
  · exact List.sorted_insertionSort _ l2

theorem getD_map (f : α → β) (d : β) (d0 : α) :
    ∀ (l : List α) (i : Nat), i < l.length → (l.map f).getD i d = f (l.getD i d0) := by
  intro l
  induction l with
  | nil => intro i h; simp at h
  | cons x xs ih =>
    intro i h
    cases i with
    | zero => simp [List.getD]
    | succ j =>
      have hj : j < xs.length := by simpa using Nat.lt_of_succ_lt_succ h
      simpa [List.getD_cons_succ] using ih j hj

theorem sampleAux_spec :
    ∀ (k : Nat) (st : Nat) (arr : List Nat), arr.Nodup → k ≤ arr.length →
      (sampleAux st k arr).length = k ∧ (sampleAux st k arr).Nodup ∧
        ∀ x ∈ sampleAux st k arr, x ∈ arr := by
  intro k
  induction k with
  | zero =>
    intro st arr _ _
    exact ⟨rfl, List.nodup_nil, by intro x hx; simp [sampleAux] at hx⟩
  | succ k ih =>
    intro st arr hnd hk
    have hne : arr ≠ [] := by
      intro h
      subst h
      simp at hk
    have hlen : 0 < arr.length := List.length_pos.mpr hne
    have hEmp : arr.isEmpty = false := by
      simp [List.isEmpty_iff]
      exact hne
    have hr : lcgStep st % arr.length < arr.length := Nat.mod_lt _ hlen
    set x := arr.getD (lcgStep st % arr.length) 0 with hxdef
    have hx : x ∈ arr := getD_mem arr _ 0 hr
    have hlen2 : (arr.erase x).length = arr.length - 1 := List.length_erase_of_mem hx
    have hk2 : k ≤ (arr.erase x).length := by omega
    have hnd2 : (arr.erase x).Nodup := hnd.erase x
    obtain ⟨ihlen, ihnd, ihmem⟩ := ih (lcgStep st) (arr.erase x) hnd2 hk2
    have hunf : sampleAux st (k + 1) arr = x :: sampleAux (lcgStep st) k (arr.erase x) := by
      rw [sampleAux, hEmp]
      simp [hxdef, List.getD]
    rw [hunf]
    refine ⟨by simp [ihlen], ?_, ?_⟩
    · rw [List.nodup_cons]
      refine ⟨?_, ihnd⟩
      intro hmem
      have := ihmem x hmem
      rw [hnd.mem_erase_iff] at this
      exact this.1 rfl
    · intro y hy
      rcases List.mem_cons.mp hy with h | h
      · subst h; exact hx
      · exact List.erase_subset x arr (ihmem y h)

/-! ## Network-level characterizations -/

theorem apply_rand_spiking_neuron_rad_eq (rad : Rad_damage) (seed : Int)
    (net : Network) (ignored : List String) :
    (apply_rand_spiking_neuron_rad rad seed net ignored).nodes =
      net.nodes ++
        (randNeuronPairs rad seed ignored net.synapses net.nextUid 0 net.nodes).map Prod.fst ∧
    (apply_rand_spiking_neuron_rad rad seed net ignored).synapses =
      net.synapses ++
        (randNeuronPairs rad seed ignored net.synapses net.nextUid 0 net.nodes).flatMap
          (fun pr => pr.2.map (fun syn => mkPlainSynapse pr.1 syn.post syn.w 1)) := by
  have hfold := randNeuron_fold_spec
    (randNeuronPairs rad seed ignored net.synapses net.nextUid 0 net.nodes)
    { net with nextUid := net.nextUid +
        (randNeuronPairs rad seed ignored net.synapses net.nextUid 0 net.nodes).length }
  constructor
  · simp only [apply_rand_spiking_neuron_rad]
    rw [hfold.1]
  · simp only [apply_rand_spiking_neuron_rad]
    rw [hfold.2]

/-- The `enumerate` records of the neurons whose names are not excluded. -/
def selectedNeurons (net : Network) (ignored : List String) : List (Nat × Node) :=
  (enumFrom 0 net.nodes).filter (fun p => p.2.name ∉ ignored)

/-- Spec-side description of the delta-current phase-1 creations: the
non-excluded neuron at original position `i` gets a source with the next
fresh uid, Bernoulli parameter `rad.probability_per_t`, internal amplitude
−10000, and rng seed `seed + i`. -/
def deltaUCreated (rad : Rad_damage) (seed : Int) (net : Network)
    (ignored : List String) : List (Node × Node) :=
  mapWithIdx
    (fun u2 p =>
      (({ uid := u2,
          payload := .randomSpiker rad.probability_per_t (-10000) (seed + p.1) } : Node),
        p.2))
    net.nextUid (selectedNeurons net ignored)

theorem enumFrom_filter_snd_length (p : α → Prop) [DecidablePred p] :
    ∀ (l : List α) (i : Nat),
      ((enumFrom i l).filter (fun q => p q.2)).length =
        (l.filter (fun x => p x)).length := by
  intro l
  induction l with
  | nil => intro i; rfl
  | cons x xs ih =>
    intro i
    by_cases hx : p x
    · simp [enumFrom, List.filter_cons, hx, ih]
    · simp [enumFrom, List.filter_cons, hx, ih]

/-! ## Concrete fixtures -/

def nodeA : Node := { uid := 0, payload := .lif "A" }

def nodeB : Node := { uid := 1, payload := .lif "B" }

def nodeC : Node := { uid := 2, payload := .lif "C" }

/-- The one original synapse of the scenario network: `A → B`, weight 2. -/
def synAB : Synapse := mkPlainSynapse nodeA nodeB 2 1

def netABC : Network := { nodes := [nodeA, nodeB, nodeC], synapses := [synAB], nextUid := 3 }

def netA : Network := { nodes := [nodeA], synapses := [], nextUid := 1 }

def radNeuronDeath : Rad_damage :=
  { amplitude := -10000, effect_type := "neuron_death", excitatory := true,
    inhibitory := false, probability_per_t := some (1 / 2),
    nr_of_synaptic_weight_increases := none }

def radSpike : Rad_damage :=
  { amplitude := 1, effect_type := "rand_neuron_spike", excitatory := true,
    inhibitory := false, probability_per_t := some 1,
    nr_of_synaptic_weight_increases := none }

def radChangeU : Rad_damage :=
  { amplitude := 5, effect_type := "change_u", excitatory := true,
    inhibitory := false, probability_per_t := some (1 / 2),
    nr_of_synaptic_weight_increases := none }

/-- The FaultSpec of the spec's digest scenario. -/
def radScenario : Rad_damage :=
  { amplitude := 5, effect_type := "neuron_death", excitatory := true,
    inhibitory := false, probability_per_t := some (1 / 2),
    nr_of_synaptic_weight_increases := none }

def sourceA : Node := { uid := 3, payload := .randomSpiker (some 1) 1 7 }

def sourceB : Node := { uid := 4, payload := .randomSpiker (some 1) 1 8 }

def sourceC : Node := { uid := 5, payload := .randomSpiker (some 1) 1 9 }

def gA : GNode := { name := "A", rad_death := some true }

def gB : GNode := { name := "B", rad_death := none }

/-! ## Claim theorems -/

/-- Claim C1.  The spec's dispatch contract says `effect_kind = NeuronDeath`
(`"neuron_death"`) routes to the delta-current branch, so the network is not
left unchanged.  The dispatcher in the source tests only `"change_u"`,
`"rand_neuron_spike"` and `"rand_synapse_spike"` and falls through silently:
on a 3-neuron network with no exclusions and a `"neuron_death"` fault spec,
`apply_rad_to_simsnn` returns the network unchanged (contradicting both the
claim and the function's own docstring, which says random neuron death is
realised by adding one spiking neuron per original neuron). -/
theorem c1_neuron_death_dispatch_is_noop :
    apply_rad_to_simsnn radNeuronDeath 7 netABC [] = netABC ∧
    radNeuronDeath.effect_type = "neuron_death" ∧
    netABC.nodes.length = 3 := by
  refine ⟨?_, rfl, rfl⟩
  rfl

/-- Claim C2, counterexample.  The claim says the synthetic source created by
the delta-current branch has unit internal amplitude; on a one-neuron
network the source actually created carries internal amplitude −10000
(`RandomSpiker(p=..., amplitude=-10000, ...)` in the source), and
−10000 ≠ 1. -/
theorem c2_unit_amplitude_counterexample :
    ((apply_delta_u_rad radChangeU 0 netA []).nodes.getD 1 default).spikerInternalAmplitude
        = some (-10000) ∧ ((-10000 : ℚ) ≠ 1) := by
  constructor
  · rfl
  · norm_num

/-- Claim C2 (amended: the synthetic source's internal amplitude is −10000,
not 1).  For every fault spec, seed, network and exclusion list,
`apply_delta_u_rad` appends exactly one synthetic Bernoulli source per
non-excluded existing neuron — with firing probability
`rad.probability_per_t`, internal amplitude −10000, and rng seed
`seed + i` where `i` is the neuron's positional index — and exactly one new
synapse from that source into that neuron with weight `rad.amplitude` and
delay 1; nothing else is added and the original prefix is untouched. -/
theorem c2_apply_delta_u_rad_characterization (rad : Rad_damage) (seed : Int)
    (net : Network) (ignored : List String) :
    (apply_delta_u_rad rad seed net ignored).nodes =
      net.nodes ++ (deltaUCreated rad seed net ignored).map Prod.fst ∧
    (apply_delta_u_rad rad seed net ignored).synapses =
      net.synapses ++ (deltaUCreated rad seed net ignored).map
        (fun pr => mkPlainSynapse pr.1 pr.2 rad.amplitude 1) ∧
    (deltaUCreated rad seed net ignored).length =
      (net.nodes.filter (fun n => n.name ∉ ignored)).length := by
  have hpairs : deltaUPairs rad seed ignored net.nextUid 0 net.nodes =
      deltaUCreated rad seed net ignored := by
    rw [deltaUPairs_eq]
    rfl
  have hfold := deltaU_fold_spec rad
    (deltaUPairs rad seed ignored net.nextUid 0 net.nodes)
    { net with nextUid := net.nextUid +
        (deltaUPairs rad seed ignored net.nextUid 0 net.nodes).length }
  refine ⟨?_, ?_, ?_⟩
  · simp only [apply_delta_u_rad]
    rw [hfold.1, hpairs]
  · simp only [apply_delta_u_rad]
    rw [hfold.2, hpairs]
  · rw [deltaUCreated, mapWithIdx_length, selectedNeurons]
    exact enumFrom_filter_snd_length (fun n : Node => n.name ∉ ignored) net.nodes 0

/-- Claim C3, counterexample.  The claim says `get_rad_hash` appends to a
copy of `element_names`, leaving the caller's list unchanged; the source
calls `neuron_names.append(...)` twice on the argument itself, so after
`get_rad_hash(["a"], 5)` the caller's list has three elements, not one. -/
theorem c3_get_rad_hash_mutates_argument :
    (radChangeU.get_rad_hash ["a"] 5).2 ≠ ["a"] := by
  intro h
  have hlen : ((radChangeU.get_rad_hash ["a"] 5).2).length = 3 := by
    simp [Rad_damage.get_rad_hash]
  rw [h] at hlen
  simp at hlen

/-- Claim C3 (amended: the two extra entries are appended to the caller's
`element_names` list itself, mutating it, rather than to a copy).  For
every fault spec, name list and seed, `get_rad_hash` leaves the argument
list equal to the original list with `get_rad_settings_hash` and
`str(seed)` appended at the end, and returns the hash of the sorted
combined list — the same value `list_of_hashes_to_hash` computes on that
combined list. -/
theorem c3_get_rad_hash_amended (r : Rad_damage) (names : List String)
    (seed : Int) :
    (r.get_rad_hash names seed).2 =
      names ++ [r.get_rad_settings_hash, toString seed] ∧
    (r.get_rad_hash names seed).1 =
      list_of_hashes_to_hash (names ++ [r.get_rad_settings_hash, toString seed]) := by
  constructor
  · simp [Rad_damage.get_rad_hash]
  · simp [Rad_damage.get_rad_hash, list_of_hashes_to_hash]

/-- Claim C4.  FaultSpec construction fails exactly when both
probability-style parameters are given, or neither is, or
`probability_per_t` lies outside `[0, 1]`, or the effect type is not one of
the five enumerated kinds; in particular probability 3/2 and −1/10 are
rejected while 0 and 1 are accepted.  The `Except`-valued constructor makes
every failure a construction-time failure. -/
theorem c4_construction_error_iff :
    (∀ (amplitude : ℚ) (effect_type : String) (excit inhib : Bool)
        (p : Option ℚ) (nswi : Option Int),
        isError (Rad_damage.make amplitude effect_type excit inhib p nswi) = true ↔
          ((p ≠ none ∧ nswi ≠ none) ∨ (p = none ∧ nswi = none) ∨
            (∃ v, p = some v ∧ (v < 0 ∨ 1 < v)) ∨
            effect_type ∉ validEffectTypes)) ∧
    isError (Rad_damage.make 5 "change_u" true false (some (3 / 2)) none) = true ∧
    isError (Rad_damage.make 5 "change_u" true false (some (-1 / 10)) none) = true ∧
    isError (Rad_damage.make 5 "change_u" true false (some 0) none) = false ∧
    isError (Rad_damage.make 5 "change_u" true false (some 1) none) = false := by
  have hmain : ∀ (amplitude : ℚ) (effect_type : String) (excit inhib : Bool)
      (p : Option ℚ) (nswi : Option Int),
      isError (Rad_damage.make amplitude effect_type excit inhib p nswi) = true ↔
        ((p ≠ none ∧ nswi ≠ none) ∨ (p = none ∧ nswi = none) ∨
          (∃ v, p = some v ∧ (v < 0 ∨ 1 < v)) ∨
          effect_type ∉ validEffectTypes) := by
    intro amplitude effect_type excit inhib p nswi
    rcases p with _ | v <;> rcases nswi with _ | n
    · simp [Rad_damage.make, isError]
    · by_cases hk : effect_type ∈ validEffectTypes <;>
        simp [Rad_damage.make, isError, hk]
    · by_cases h1 : (1 : ℚ) < v
      · simp [Rad_damage.make, isError, h1]
      · by_cases h0 : v < 0
        · simp [Rad_damage.make, isError, h1, h0]
        · by_cases hk : effect_type ∈ validEffectTypes <;>
            simp [Rad_damage.make, isError, h1, h0, hk]
    · simp [Rad_damage.make, isError]
  refine ⟨hmain, ?_, ?_, ?_, ?_⟩
  · exact (hmain 5 "change_u" true false (some (3 / 2)) none).mpr
      (Or.inr (Or.inr (Or.inl ⟨3 / 2, rfl, Or.inr (by norm_num)⟩)))
  · exact (hmain 5 "change_u" true false (some (-1 / 10)) none).mpr
      (Or.inr (Or.inr (Or.inl ⟨-1 / 10, rfl, Or.inl (by norm_num)⟩)))
  · have h := hmain 5 "change_u" true false (some 0) none
    rcases Bool.eq_false_or_eq_true
        (isError (Rad_damage.make 5 "change_u" true false (some 0) none)) with hb | hb
    · exact absurd (h.mp hb)
        (by
          rintro (⟨_, hne⟩ | ⟨hsome, _⟩ | ⟨v, hv, hrange⟩ | hmem)
          · exact hne rfl
          · exact Option.some_ne_none _ hsome
          · rw [Option.some_inj] at hv
            subst hv
            rcases hrange with hr | hr <;> norm_num at hr
          · exact hmem (by simp [validEffectTypes]))
    · exact hb
  · have h := hmain 5 "change_u" true false (some 1) none
    rcases Bool.eq_false_or_eq_true
        (isError (Rad_damage.make 5 "change_u" true false (some 1) none)) with hb | hb
    · exact absurd (h.mp hb)
        (by
          rintro (⟨_, hne⟩ | ⟨hsome, _⟩ | ⟨v, hv, hrange⟩ | hmem)
          · exact hne rfl
          · exact Option.some_ne_none _ hsome
          · rw [Option.some_inj] at hv
            subst hv
            rcases hrange with hr | hr <;> norm_num at hr
          · exact hmem (by simp [validEffectTypes]))
    · exact hb

/-- Claim C5.  For every `total_count ≥ 0`, `fraction ∈ [0, 1]` and seed,
the element sampler returns exactly `⌊total_count * fraction⌋` positions,
pairwise distinct and all in `[0, total_count)`; `fraction = 0` or
`total_count = 0` yields the empty selection.  Determinism is inherent in
the embedding: the sampler is a pure function of
`(total_count, fraction, seed)`. -/
theorem c5_sampler_bounds (total_count : Nat) (fraction : ℚ) (seed : Int)
    (h0 : 0 ≤ fraction) (h1 : fraction ≤ 1) :
    (sample total_count fraction seed).length =
      Int.toNat ⌊(total_count : ℚ) * fraction⌋ ∧
    (sample total_count fraction seed).Nodup ∧
    (∀ x ∈ sample total_count fraction seed, x < total_count) ∧
    (fraction = 0 → sample total_count fraction seed = []) ∧
    (total_count = 0 → sample total_count fraction seed = []) := by
  have hmul : (total_count : ℚ) * fraction ≤ (total_count : ℚ) := by
    calc (total_count : ℚ) * fraction ≤ (total_count : ℚ) * 1 :=
          mul_le_mul_of_nonneg_left h1 (by positivity)
      _ = (total_count : ℚ) := mul_one _
  have hfl : ⌊(total_count : ℚ) * fraction⌋ ≤ (total_count : Int) := by
    have h2 := Int.floor_le_floor hmul
    simpa using h2
  have htarget : Int.toNat ⌊(total_count : ℚ) * fraction⌋ ≤ total_count := by
    rw [Int.toNat_le]
    exact_mod_cast hfl
  have hspec := sampleAux_spec (Int.toNat ⌊(total_count : ℚ) * fraction⌋)
    (seedToNat seed) (List.range total_count) (List.nodup_range total_count)
    (by simpa [List.length_range] using htarget)
  refine ⟨?_, ?_, ?_, ?_, ?_⟩
  · exact hspec.1
  · exact hspec.2.1
  · intro x hx
    exact List.mem_range.mp (hspec.2.2 x hx)
  · intro hf
    subst hf
    simp [sample, sampleAux]
  · intro ht
    subst ht
    simp [sample, sampleAux]

/-- Witness for C5 at `total_count = 4`, `fraction = 1/2`, `seed = 9`. -/
theorem c5_sampler_bounds_witness :
    (0 : ℚ) ≤ 1 / 2 ∧ (1 / 2 : ℚ) ≤ 1 ∧
      ((sample 4 (1 / 2) 9).length = Int.toNat ⌊(4 : ℚ) * (1 / 2)⌋ ∧
        (sample 4 (1 / 2) 9).Nodup ∧
        (∀ x ∈ sample 4 (1 / 2) 9, x < 4) ∧
        ((1 / 2 : ℚ) = 0 → sample 4 (1 / 2) 9 = []) ∧
        ((4 : Nat) = 0 → sample 4 (1 / 2) 9 = [])) :=
  ⟨by norm_num, by norm_num,
    c5_sampler_bounds 4 (1 / 2) 9 (by norm_num) (by norm_num)⟩

/-- Claim C6.  The settings digest is a pure function of the six field
values (equal fields give equal digests), it is a 64-character string of
hex characters (and, being a function, the same on repeated calls), and
`list_of_hashes_to_hash` is invariant under permutation of its input
list. -/
theorem c6_digest_pure_and_order_independent (r1 r2 : Rad_damage)
    (l1 l2 : List String)
    (hamp : r1.amplitude = r2.amplitude)
    (heff : r1.effect_type = r2.effect_type)
    (hexc : r1.excitatory = r2.excitatory)
    (hinh : r1.inhibitory = r2.inhibitory)
    (hp : r1.probability_per_t = r2.probability_per_t)
    (hn : r1.nr_of_synaptic_weight_increases = r2.nr_of_synaptic_weight_increases)
    (hperm : l1.Perm l2) :
    r1.get_rad_settings_hash = r2.get_rad_settings_hash ∧
    r1.get_rad_settings_hash.length = 64 ∧
    (∀ c ∈ r1.get_rad_settings_hash.data, c ∈ hexChars) ∧
    list_of_hashes_to_hash l1 = list_of_hashes_to_hash l2 := by
  have hr : r1 = r2 := by
    cases r1
    cases r2
    simp_all
  subst hr
  refine ⟨rfl, sha256hex_length _, sha256hex_mem _, ?_⟩
  unfold list_of_hashes_to_hash
  rw [sortStrings_perm_eq hperm]

/-- Witness for C6: the spec's scenario FaultSpec and the two-element
permutation `["b", "a"] ~ ["a", "b"]`. -/
theorem c6_digest_witness :
    radScenario.get_rad_settings_hash = radScenario.get_rad_settings_hash ∧
    radScenario.get_rad_settings_hash.length = 64 ∧
    (∀ c ∈ radScenario.get_rad_settings_hash.data, c ∈ hexChars) ∧
    list_of_hashes_to_hash ["b", "a"] = list_of_hashes_to_hash ["a", "b"] :=
  c6_digest_pure_and_order_independent radScenario radScenario
    ["b", "a"] ["a", "b"] rfl rfl rfl rfl rfl rfl (by decide)

/-- Claim C7.  After one run of the neuron-spike injection, no synthetic
source created in that call receives an incoming synapse from any synthetic
source created in the same call: the two-phase apply snapshots the synapse
list before any additions, every new synapse's post endpoint is the post of
an original synapse (an object that existed before the call,
`uid < net.nextUid`), while every source created in the call has a fresh
`uid ≥ net.nextUid`. -/
theorem c7_no_self_mutation (rad : Rad_damage) (seed : Int) (net : Network)
    (ignored : List String) (s : Synapse)
    (hwf : ∀ syn ∈ net.synapses, syn.post.uid < net.nextUid)
    (hs : s ∈ (apply_rand_spiking_neuron_rad rad seed net ignored).synapses) :
    ¬(s.pre ∈ (apply_rand_spiking_neuron_rad rad seed net ignored).nodes.drop
        net.nodes.length ∧
      s.post ∈ (apply_rand_spiking_neuron_rad rad seed net ignored).nodes.drop
        net.nodes.length) := by
  intro hcon
  have heq := apply_rand_spiking_neuron_rad_eq rad seed net ignored
  have hdrop : (apply_rand_spiking_neuron_rad rad seed net ignored).nodes.drop
      net.nodes.length =
      (randNeuronPairs rad seed ignored net.synapses net.nextUid 0 net.nodes).map
        Prod.fst := by
    rw [heq.1]
    exact List.drop_left _ _
  have hpost : s.post.uid < net.nextUid := by
    have hs2 := hs
    rw [heq.2] at hs2
    rcases List.mem_append.mp hs2 with hold | hnew
    · exact hwf s hold
    · rcases List.mem_flatMap.mp hnew with ⟨pr, hpr, hsm⟩
      rcases List.mem_map.mp hsm with ⟨syn, hsyn, hseq⟩
      have hmem := randNeuronPairs_mem rad seed ignored net.synapses net.nodes
        net.nextUid 0 pr hpr
      have hsynmem : syn ∈ net.synapses := hmem.2 syn hsyn
      have hpostuid := hwf syn hsynmem
      rw [← hseq]
      simpa [mkPlainSynapse] using hpostuid
  have hcreated : s.post ∈
      (randNeuronPairs rad seed ignored net.synapses net.nextUid 0 net.nodes).map
        Prod.fst := by
    rw [← hdrop]
    exact hcon.2
  rcases List.mem_map.mp hcreated with ⟨pr, hpr, hfst⟩
  have hmem := randNeuronPairs_mem rad seed ignored net.synapses net.nodes
    net.nextUid 0 pr hpr
  have hge : net.nextUid ≤ s.post.uid := by
    rw [← hfst]
    exact hmem.1
  omega

/-- Witness for C7: the scenario network and its original synapse `A → B`. -/
theorem c7_no_self_mutation_witness :
    ¬(synAB.pre ∈ (apply_rand_spiking_neuron_rad radSpike 7 netABC []).nodes.drop
        netABC.nodes.length ∧
      synAB.post ∈ (apply_rand_spiking_neuron_rad radSpike 7 netABC []).nodes.drop
        netABC.nodes.length) :=
  c7_no_self_mutation radSpike 7 netABC [] synAB (by decide) (by decide)

/-- Claim C8.  On the 3-neuron network `A, B, C` with one synapse `A → B` of
weight 2, RandomNeuronSpike injection with probability 1, seed 7 and no
exclusions adds exactly the three synthetic sources (seeds 7, 8, 9) and
exactly one new synapse, from A's source into `B` with weight 2 and delay 1;
the sources created for `B` and `C` gain no outgoing synapses. -/
theorem c8_rand_neuron_spike_scenario :
    (apply_rand_spiking_neuron_rad radSpike 7 netABC []).nodes =
      netABC.nodes ++ [sourceA, sourceB, sourceC] ∧
    (apply_rand_spiking_neuron_rad radSpike 7 netABC []).synapses =
      netABC.synapses ++ [mkPlainSynapse sourceA nodeB 2 1] ∧
    ((apply_rand_spiking_neuron_rad radSpike 7 netABC []).synapses.filter
      (fun s => s.pre = sourceB ∨ s.pre = sourceC)) = [] := by
  refine ⟨?_, ?_, ?_⟩ <;> rfl

/-- Claim C9.  The synaptic-weight-increase branch (run with at least one
probability-style field set, as FaultSpec validation guarantees) keeps the
node list, keeps the synapse count, replaces the synapse at each position
whose two endpoint names are non-excluded by one carrying the same pre,
post, weight and delay plus the shared fault behaviour, and leaves every
synapse with an excluded endpoint unchanged at its position. -/
theorem c9_weight_increase_in_place (est : Int) (ignored : List String)
    (rad : Rad_damage) (seed : Int) (net : Network) (i : Nat)
    (hspec : rad.nr_of_synaptic_weight_increases ≠ none ∨
      rad.probability_per_t ≠ none)
    (hi : i < net.synapses.length) :
    ∃ net2, apply_synapse_weight_increase_rad est ignored rad seed net = .ok net2 ∧
      net2.nodes = net.nodes ∧ net2.nextUid = net.nextUid ∧
      net2.synapses.length = net.synapses.length ∧
      (((net.synapses.getD i default).pre.name ∉ ignored ∧
        (net.synapses.getD i default).post.name ∉ ignored) →
        net2.synapses.getD i default =
          { pre := (net.synapses.getD i default).pre,
            post := (net.synapses.getD i default).post,
            w := (net.synapses.getD i default).w,
            d := (net.synapses.getD i default).d,
            rad_behaviour := some (mkSynapticRad est rad seed net),
            ID := some i }) ∧
      (¬((net.synapses.getD i default).pre.name ∉ ignored ∧
          (net.synapses.getD i default).post.name ∉ ignored) →
        net2.synapses.getD i default = net.synapses.getD i default) := by
  have hcond : ¬(rad.nr_of_synaptic_weight_increases = none ∧
      rad.probability_per_t = none) := by tauto
  simp only [apply_synapse_weight_increase_rad, if_neg hcond]
  refine ⟨_, rfl, rfl, rfl, ?_, ?_, ?_⟩
  · exact mapWithIdx_length _ _ _
  · intro hcase
    rw [mapWithIdx_getD _ default default net.synapses 0 i hi]
    simp only [Nat.zero_add]
    rw [if_pos hcase]
  · intro hcase
    rw [mapWithIdx_getD _ default default net.synapses 0 i hi]
    simp only [Nat.zero_add]
    rw [if_neg hcase]

/-- Witness for C9 at the scenario network, position 0, no exclusions. -/
theorem c9_weight_increase_witness :
    ∃ net2, apply_synapse_weight_increase_rad 10 [] radChangeU 0 netABC = .ok net2 ∧
      net2.nodes = netABC.nodes ∧ net2.nextUid = netABC.nextUid ∧
      net2.synapses.length = netABC.synapses.length ∧
      (((netABC.synapses.getD 0 default).pre.name ∉ ([] : List String) ∧
        (netABC.synapses.getD 0 default).post.name ∉ ([] : List String)) →
        net2.synapses.getD 0 default =
          { pre := (netABC.synapses.getD 0 default).pre,
            post := (netABC.synapses.getD 0 default).post,
            w := (netABC.synapses.getD 0 default).w,
            d := (netABC.synapses.getD 0 default).d,
            rad_behaviour := some (mkSynapticRad 10 radChangeU 0 netABC),
            ID := some 0 }) ∧
      (¬((netABC.synapses.getD 0 default).pre.name ∉ ([] : List String) ∧
          (netABC.synapses.getD 0 default).post.name ∉ ([] : List String)) →
        net2.synapses.getD 0 default = netABC.synapses.getD 0 default) :=
  c9_weight_increase_in_place 10 [] radChangeU 0 netABC 0
    (Or.inr (by simp [radChangeU])) (by decide)

/-- Claim C10.  After `store_dead_neuron_names_in_graph`, every node of the
graph carries a `"rad_death"` mark that is `True` exactly when its name is
in the dead-name list and `False` otherwise, overwriting any previous mark;
node names and the node count are unchanged. -/
theorem c10_store_dead_marks (G : List GNode) (dead : List String) (i : Nat)
    (hi : i < G.length) :
    (store_dead_neuron_names_in_graph G dead).length = G.length ∧
    ((store_dead_neuron_names_in_graph G dead).getD i default).name =
      (G.getD i default).name ∧
    (((store_dead_neuron_names_in_graph G dead).getD i default).rad_death =
        some true ↔ (G.getD i default).name ∈ dead) ∧
    (((store_dead_neuron_names_in_graph G dead).getD i default).rad_death =
        some false ↔ (G.getD i default).name ∉ dead) := by
  have hget := getD_map
    (fun nd : GNode =>
      if nd.name ∈ dead then { nd with rad_death := some true }
      else { nd with rad_death := some false })
    default default G i hi
  have hmain : (store_dead_neuron_names_in_graph G dead).getD i default =
      (if (G.getD i default).name ∈ dead
        then { G.getD i default with rad_death := some true }
        else { G.getD i default with rad_death := some false }) := by
    simp only [store_dead_neuron_names_in_graph]
    rw [hget]
  obtain ⟨nd, hnd⟩ : ∃ nd, G.getD i default = nd := ⟨_, rfl⟩
  rw [hnd] at hmain
  refine ⟨by simp [store_dead_neuron_names_in_graph], ?_, ?_, ?_⟩ <;>
    rw [hmain, hnd] <;>
    by_cases hmem : nd.name ∈ dead <;>
    simp [hmem]

/-- Witness for C10: a two-node graph where `A` carries a stale `True` mark
and only `B` is in the dead list. -/
theorem c10_store_dead_marks_witness :
    (store_dead_neuron_names_in_graph [gA, gB] ["B"]).length = [gA, gB].length ∧
    ((store_dead_neuron_names_in_graph [gA, gB] ["B"]).getD 0 default).name =
      ([gA, gB].getD 0 default).name ∧
    (((store_dead_neuron_names_in_graph [gA, gB] ["B"]).getD 0 default).rad_death =
        some true ↔ ([gA, gB].getD 0 default).name ∈ ["B"]) ∧
    (((store_dead_neuron_names_in_graph [gA, gB] ["B"]).getD 0 default).rad_death =
        some false ↔ ([gA, gB].getD 0 default).name ∉ ["B"]) :=
  c10_store_dead_marks [gA, gB] ["B"] 0 (by decide)
